import Mathlib

/-!
Verification development for the core of the Meson build system front-end:
a shallow embedding in Lean 4 of the interpreter's value model, indexing and
arithmetic evaluation, configuration-data handling, the `#mesondefine`
expansion, target registration, global-argument freezing, subproject
recursion, the option-key model, and the wrap/subproject resolver.

Each definition is translated from the Python source file and function it
names; machine integers are modelled by `Int`/`Nat` (Python integers are
unbounded, so no wrap-around is needed), fallible code returns `Except` or
carries an `Option` error component, and stateful code is explicit state
passing.
-/

set_option maxHeartbeats 1000000

namespace Meson

/-- The runtime values the interpreter manipulates at the points relevant
here: Python `int`, `str`, `bool` and `list` (interpreter.py works on native
Python values after `to_native`). -/
inductive Value : Type where
  | vint  (n : Int)
  | vstr  (s : String)
  | vbool (b : Bool)
  | vlist (l : List Value)
deriving Repr

/-- Python `isinstance(v, list)` on a script value. -/
def Value.isList : Value → Bool
  | .vlist _ => true
  | _ => false

/-- The error kinds raised by the embedded code (taxonomy of interpreter.py,
mesonlib.py and wrap.py: `InvalidCode`, `InvalidArguments`,
`InterpreterException`, `MesonException`, `RuntimeError`). -/
inductive IErr : Type where
  | invalidCode (msg : String)
  | invalidArguments (msg : String)
  | interpreterException (msg : String)
  | mesonException (msg : String)
  | runtimeError (msg : String)
deriving Repr, DecidableEq

/-- The integer-index path of `Interpreter.evaluate_indexing`: the bounds
check `index < -len(iobject) or index >= len(iobject)` and Python
`iobject[index]` with a negative index counting from the end. -/
def pyListIndex (l : List Value) (i : Int) : Except IErr Value :=
  if i < -(l.length : Int) ∨ (l.length : Int) ≤ i then
    .error (.interpreterException
      ("Index " ++ toString i ++ " out of bounds of array of size " ++
        toString l.length ++ "."))
  else
    let j : Nat := if i < 0 then ((l.length : Int) + i).toNat else i.toNat
    match l.get? j with
    | some v => .ok v
    | none => .error (.interpreterException "unreachable")

/-- Embedding of `Interpreter.evaluate_indexing` (interpreter.py): the object must be a
list; the index goes through `isinstance(index, int)`, which a Python
`bool` also satisfies (`bool` is an `int` subtype), so a boolean indexes as
1 or 0; strings and lists fail the check. -/
def evaluate_indexing (iobject : Value) (index : Value) : Except IErr Value :=
  match iobject with
  | .vlist l =>
    match index with
    | .vint i => pyListIndex l i
    | .vbool b => pyListIndex l (if b then 1 else 0)
    | _ => .error (.interpreterException "Index value is not an integer.")
  | _ => .error (.interpreterException "Tried to index a non-array object.")

/-- Python `+` on the native values reaching
`Interpreter.evaluate_arithmeticstatement` (interpreter.py): `int+int` sums,
`str+str` concatenates, `list+list` concatenates, `bool` participates as an
integer (Python `bool` is an `int` subtype); every other combination is a
`TypeError`, modelled by `none`. -/
def pyAddRaw : Value → Value → Option Value
  | .vint a, .vint b => some (.vint (a + b))
  | .vint a, .vbool b => some (.vint (a + (if b then 1 else 0)))
  | .vbool a, .vint b => some (.vint ((if a then 1 else 0) + b))
  | .vbool a, .vbool b => some (.vint ((if a then 1 else 0) + (if b then 1 else 0)))
  | .vstr a, .vstr b => some (.vstr (a ++ b))
  | .vlist a, .vlist b => some (.vlist (a ++ b))
  | _, _ => none

/-- The `add` branch of `Interpreter.evaluate_arithmeticstatement`
(interpreter.py): `return l + r` inside `try`, with any exception converted
into `InvalidCode('Invalid use of addition: ...')`. -/
def evaluate_add (l r : Value) : Except IErr Value :=
  match pyAddRaw l r with
  | some v => .ok v
  | none => .error (.invalidCode "Invalid use of addition: unsupported operand type(s) for +")

/-- Embedding of `Interpreter.evaluate_plusassign` (interpreter.py): `+=` works only when
the old variable is a list; a list addition concatenates, anything else is
appended as a single element; the result rebinds the variable to a fresh
list. -/
def evaluate_plusassign (old_variable : Value) (addition : Value) : Except IErr Value :=
  match old_variable with
  | .vlist old =>
    match addition with
    | .vlist add => .ok (.vlist (old ++ add))
    | x => .ok (.vlist (old ++ [x]))
  | _ => .error (.invalidArguments "The += operator currently only works with arrays.")

/-! ### Configuration data (interpreter.py `ConfigurationDataHolder`,
mesonlib.py `do_mesondefine`) -/

/-- Worker for `pySplitWs`: walk the characters, accumulating the current
token reversed; whitespace ends a token, and empty tokens are dropped. -/
def splitWsChars : List Char → List Char → List String
  | [], acc => if acc.isEmpty then [] else [String.mk acc.reverse]
  | c :: cs, acc =>
    if c.isWhitespace then
      (if acc.isEmpty then [] else [String.mk acc.reverse]) ++ splitWsChars cs []
    else
      splitWsChars cs (c :: acc)

/-- Python `str.split()` with no argument: split on runs of whitespace,
dropping empty tokens. -/
def pySplitWs (line : String) : List String :=
  splitWsChars line.data []

/-- An ordered string-keyed dictionary, modelling a Python `dict`. -/
abbrev Dict (α : Type) : Type := List (String × α)

/-- Python `d[k]` lookup returning `None`-style absence as `Option`. -/
def dictGet {α : Type} (d : Dict α) (k : String) : Option α :=
  match d.find? (fun p => p.1 == k) with
  | some p => some p.2
  | none => none

/-- Python `d[k] = v`: replace in place if the key exists, append otherwise
(insertion order is preserved). -/
def dictSet {α : Type} (d : Dict α) (k : String) (v : α) : Dict α :=
  if d.any (fun p => p.1 == k) then
    d.map (fun p => if p.1 == k then (k, v) else p)
  else
    d ++ [(k, v)]

/-- Embedding of `build.ConfigurationData.values`, the mapping a `configuration_data()`
object holds (its use in interpreter.py is a plain string-keyed `dict` of
script values). -/
def ConfigurationData : Type := Dict Value

/-- Embedding of `mesonlib.do_mesondefine`: expand one `#mesondefine` line against the
configuration data. The line is split on whitespace; exactly two tokens are
required; the second names the variable. A missing variable yields a
`/* undef */` comment, booleans define/undef, integers and strings define
with the value, and any other type (e.g. a list) is a fatal
`MesonException`. -/
def do_mesondefine (line : String) (confdata : ConfigurationData) : Except IErr String :=
  let arr := pySplitWs line
  if arr.length ≠ 2 then
    .error (.mesonException "#mesondefine does not contain exactly two tokens")
  else
    let varname := arr.getD 1 ""
    match dictGet confdata varname with
    | none => .ok ("/* undef " ++ varname ++ " */\n")
    | some (.vbool true) => .ok ("#define " ++ varname ++ "\n")
    | some (.vbool false) => .ok ("#undef " ++ varname ++ "\n")
    | some (.vint n) => .ok ("#define " ++ varname ++ " " ++ toString n ++ "\n")
    | some (.vstr s) => .ok ("#define " ++ varname ++ " " ++ s ++ "\n")
    | some (.vlist _) =>
        .error (.mesonException
          ("#mesondefine argument \"" ++ varname ++ "\" is of unknown type."))

/-- Embedding of `ConfigurationDataHolder` (interpreter.py): a `configuration_data()`
object; `used` flips to `True` when the object is consumed by
`configure_file` and makes it immutable. -/
structure ConfigurationDataHolder : Type where
  used : Bool
  values : ConfigurationData

/-- Embedding of `ConfigurationDataHolder.__init__`: fresh object, not used, empty
values. -/
def ConfigurationDataHolder.init : ConfigurationDataHolder :=
  { used := false, values := [] }

/-- Embedding of `ConfigurationDataHolder.mark_used`. -/
def ConfigurationDataHolder.mark_used (h : ConfigurationDataHolder) : ConfigurationDataHolder :=
  { h with used := true }

/-- Embedding of `ConfigurationDataHolder.validate_args`: exactly two arguments, the
object must not have been used, and the first argument must be a string —
checked in that order. -/
def ConfigurationDataHolder.validate_args (h : ConfigurationDataHolder)
    (args : List Value) : Except IErr (String × Value) :=
  match args with
  | [name, val] =>
    if h.used then
      .error (.interpreterException
        "Can not set values on configuration object that has been used.")
    else
      match name with
      | .vstr s => .ok (s, val)
      | _ => .error (.interpreterException "First argument to set must be a string.")
  | _ => .error (.interpreterException "Configuration set requires 2 arguments.")

/-- Embedding of `ConfigurationDataHolder.set_method`: validate, then store the value.
Returns the updated holder; an error leaves the holder untouched (the
exception is raised before the assignment). -/
def ConfigurationDataHolder.set_method (h : ConfigurationDataHolder)
    (args : List Value) : Except IErr ConfigurationDataHolder :=
  match h.validate_args args with
  | .error e => .error e
  | .ok (name, val) => .ok { h with values := dictSet h.values name val }

/-- Python truthiness of a script value (`if val:`). -/
def pyTruthy : Value → Bool
  | .vint n => n ≠ 0
  | .vstr s => s ≠ ""
  | .vbool b => b
  | .vlist l => !l.isEmpty

/-- Embedding of `ConfigurationDataHolder.set10_method`: validate, then store 1 or 0
according to the truthiness of the value. -/
def ConfigurationDataHolder.set10_method (h : ConfigurationDataHolder)
    (args : List Value) : Except IErr ConfigurationDataHolder :=
  match h.validate_args args with
  | .error e => .error e
  | .ok (name, val) =>
      .ok { h with values := dictSet h.values name (if pyTruthy val then .vint 1 else .vint 0) }

/-- The `configuration` branch of `Interpreter.func_configure_file`
(interpreter.py), restricted to its effect on the configuration-data
object: after `do_conf_file` has consumed the data, `conf.mark_used()` is
called, so the returned holder is permanently marked used. -/
def func_configure_file_consume (conf : ConfigurationDataHolder) : ConfigurationDataHolder :=
  conf.mark_used

/-! ### Option keys (mesonbuild/options.py `OptionKey`) -/

/-- Modelled from the spec: `mesonbuild/mesonlib.py` (defining
`MachineChoice`) is not under src/; the spec fixes the machine axis as
`machine ∈ {HOST, BUILD}`. It is an integer-valued enum, compared through
its numeric value. -/
inductive MachineChoice : Type where
  | build
  | host
deriving DecidableEq, Hashable, Repr

/-- The numeric value of the `MachineChoice` integer enum (`BUILD = 0`,
`HOST = 1`), used where Python compares enum members. -/
def MachineChoice.val : MachineChoice → Nat
  | .build => 0
  | .host => 1

/-- Lexicographic three-way comparison of code-point sequences: Python's
`str` comparison. -/
def cmpCharList : List Char → List Char → Ordering
  | [], [] => .eq
  | [], _ :: _ => .lt
  | _ :: _, [] => .gt
  | a :: as, b :: bs =>
    if a.val < b.val then .lt
    else if b.val < a.val then .gt
    else cmpCharList as bs

/-- Python string three-way comparison. -/
def pyCmpStr (a b : String) : Ordering := cmpCharList a.data b.data

/-- Python three-way comparison of two `subproject` fields
(`Optional[str]`): `None` equals `None`; strings compare lexicographically;
comparing `None` against a string is a `TypeError` (unorderable), modelled
as `Except.error`. -/
def pyCmpOptStr : Option String → Option String → Except Unit Ordering
  | none, none => .ok .eq
  | some a, some b => .ok (pyCmpStr a b)
  | _, _ => .error ()

/-- Embedding of `OptionKey` (mesonbuild/options.py): name, optional subproject
(`None` is global, `""` is the top-level project), machine, and the `_hash`
field precomputed at construction. -/
structure OptionKey : Type where
  name : String
  subproject : Option String
  machine : MachineChoice
  hashv : UInt64
deriving Repr

/-- The hash of the component triple, standing for Python
`hash((name, subproject, machine))`: a fixed function of the three
components. -/
def optionKeyHash (name : String) (subproject : Option String)
    (machine : MachineChoice) : UInt64 :=
  hash (name, subproject, machine.val)

/-- Embedding of `OptionKey.__init__`: stores the components and precomputes
`_hash = hash((name, subproject, machine))`. -/
def OptionKey.make (name : String) (subproject : Option String)
    (machine : MachineChoice) : OptionKey :=
  { name := name, subproject := subproject, machine := machine,
    hashv := optionKeyHash name subproject machine }

/-- Embedding of `OptionKey.__eq__`: equality of `_to_tuple()`, i.e. componentwise
equality of `(subproject, machine, name)` (Python `==` on `None` vs a
string is simply `False`, no error). -/
def OptionKey.beq (a b : OptionKey) : Bool :=
  (a.subproject == b.subproject) && (a.machine == b.machine) && (a.name == b.name)

/-- Embedding of `OptionKey.__lt__`: Python `<` on `_to_tuple()`, which is the tuple
`(subproject, machine, name)` — note the component order in the source's
`_to_tuple`. Tuple comparison finds the first unequal component and
compares there; `None` against a string raises `TypeError`. -/
def OptionKey.lt (a b : OptionKey) : Except Unit Bool :=
  match pyCmpOptStr a.subproject b.subproject with
  | .error _ => .error ()
  | .ok .lt => .ok true
  | .ok .gt => .ok false
  | .ok .eq =>
    match compare a.machine.val b.machine.val with
    | .lt => .ok true
    | .gt => .ok false
    | .eq =>
      match pyCmpStr a.name b.name with
      | .lt => .ok true
      | _ => .ok false

/-- Spec-side definition, following the claim's words: strict ordering
lexicographic over the triple in the order `(name, subproject, machine)`.
Compared against `OptionKey.lt` for the refinement question. -/
def OptionKeySpec.lt_name_first (a b : OptionKey) : Except Unit Bool :=
  match pyCmpStr a.name b.name with
  | .lt => .ok true
  | .gt => .ok false
  | .eq =>
    match pyCmpOptStr a.subproject b.subproject with
    | .error _ => .error ()
    | .ok .lt => .ok true
    | .ok .gt => .ok false
    | .ok .eq => .ok (decide (a.machine.val < b.machine.val))

/-- Spec-side definition for the amended claim: strict ordering
lexicographic over `(subproject, machine, name)`, the order the source's
`_to_tuple` actually uses. -/
def OptionKeySpec.lt_subproject_first (a b : OptionKey) : Except Unit Bool :=
  match pyCmpOptStr a.subproject b.subproject with
  | .error _ => .error ()
  | .ok .lt => .ok true
  | .ok .gt => .ok false
  | .ok .eq =>
    match compare a.machine.val b.machine.val with
    | .lt => .ok true
    | .gt => .ok false
    | .eq =>
      match pyCmpStr a.name b.name with
      | .lt => .ok true
      | _ => .ok false

/-! ### Target registration and the build graph (interpreter.py
`Interpreter.add_target`, `Interpreter.build_target`) -/

/-- The four build-target kinds `Interpreter.build_target` can construct
(executable, static library, shared library, jar). -/
inductive TargetType : Type where
  | exe
  | sta
  | sha
  | jar
deriving DecidableEq, Repr

/-- Modelled from the spec: `build.py` (with the `BuildTarget` id scheme) is
not under src/; the spec fixes the id as a deterministic function of
`(name, target_type, subdir)` that disambiguates executables and libraries
sharing a name (example id `prog@exe`). -/
def typeSuffix : TargetType → String
  | .exe => "@exe"
  | .sta => "@sta"
  | .sha => "@sha"
  | .jar => "@jar"

/-- The identity-relevant part of a `build.BuildTarget`. -/
structure Target : Type where
  name : String
  subdir : String
  ttype : TargetType
deriving DecidableEq, Repr

/-- Modelled from the spec: `BuildTarget.get_id` lives in the absent
`build.py`; per the spec it is a deterministic function of
`(name, target_type, subdir)` injective in those components. -/
def Target.get_id (t : Target) : String :=
  t.subdir ++ "@@" ++ t.name ++ typeSuffix t.ttype

/-- Modelled from the spec: `coredata.forbidden_target_names` lives in the
absent `coredata.py`; the spec lists the reserved names `all`, `clean`,
`test`, `install`, `build.ninja`, `PHONY` (and more under "etc."). -/
def forbidden_target_names : List String :=
  ["all", "clean", "test", "install", "build.ninja", "PHONY"]

/-- The build graph's `targets` member: an ordered mapping id → target
(`Build.targets` in the absent build.py is used as a plain `dict` by
interpreter.py). -/
structure BuildGraph : Type where
  targets : Dict Target
deriving Repr

/-- Embedding of `Interpreter.add_target` (interpreter.py): reject a reserved name with
`InvalidArguments`; compute the id; reject an id already present in
`self.build.targets` with `InvalidCode`; otherwise insert. -/
def Interpreter.add_target (g : BuildGraph) (name : String) (tobj : Target) :
    Except IErr BuildGraph :=
  if name ∈ forbidden_target_names then
    .error (.invalidArguments
      ("Target name \"" ++ name ++ "\" is reserved for Meson's internal use. Please rename."))
  else
    let idname := tobj.get_id
    if g.targets.any (fun p => p.1 == idname) then
      .error (.invalidCode
        ("Tried to create target \"" ++ name ++ "\", but a target of that name already exists."))
    else
      .ok { targets := g.targets ++ [(idname, tobj)] }

/-- Embedding of the target-inserting arms of
`Interpreter.module_method_callback` (interpreter.py): a `CustomTarget`,
`Executable` or `RunTarget` returned by a module method is inserted
directly as `self.build.targets[v.name] = v` — keyed by its *name*, not by
its id — after only a name-against-keys duplicate test
(`if v.name in self.build.targets: raise`), with no reserved-name check. -/
def Interpreter.module_target_insert (g : BuildGraph) (v : Target) :
    Except IErr BuildGraph :=
  if g.targets.any (fun p => p.1 == v.name) then
    .error (.interpreterException
      ("Tried to create target " ++ v.name ++ " which already exists."))
  else
    .ok { targets := g.targets ++ [(v.name, v)] }

/-- The build graphs reachable from the empty graph through the program's
two live insertion paths into `build.targets`: `add_target` (used by
`build_target`, `custom_target` and `run_target`) and the direct
name-keyed insertion performed by `module_method_callback` for
module-returned targets. -/
inductive BuildGraph.Reachable : BuildGraph → Prop where
  | init : BuildGraph.Reachable { targets := [] }
  | step {g g' : BuildGraph} {n : String} {t : Target} :
      BuildGraph.Reachable g → Interpreter.add_target g n t = .ok g' →
      BuildGraph.Reachable g'
  | module_step {g g' : BuildGraph} {t : Target} :
      BuildGraph.Reachable g → Interpreter.module_target_insert g t = .ok g' →
      BuildGraph.Reachable g'

/-- The build graphs reachable through `add_target` registrations alone —
no module-returned targets. On this subsystem every stored key is the
stored target's id. -/
inductive BuildGraph.ReachableDecl : BuildGraph → Prop where
  | init : BuildGraph.ReachableDecl { targets := [] }
  | step {g g' : BuildGraph} {n : String} {t : Target} :
      BuildGraph.ReachableDecl g → Interpreter.add_target g n t = .ok g' →
      BuildGraph.ReachableDecl g'

/-! ### Global-argument freezing (interpreter.py
`Interpreter.func_add_global_arguments`, `Interpreter.build_target`) -/

/-- The interpreter state components involved in global-argument
freezing. -/
structure InterpState : Type where
  subproject : String
  global_args_frozen : Bool
  global_args : Dict (List String)
  graph : BuildGraph

/-- Embedding of `Interpreter.func_add_global_arguments` (interpreter.py): fails in a
subproject; fails once `global_args_frozen` is set; requires a `language`
keyword; otherwise appends the arguments under the lower-cased language. -/
def Interpreter.func_add_global_arguments (s : InterpState) (args : List String)
    (language : Option String) : Except IErr InterpState :=
  if s.subproject ≠ "" then
    .error (.invalidCode
      "Global arguments can not be set in subprojects because there is no way to make that reliable.")
  else if s.global_args_frozen then
    .error (.invalidCode
      "Tried to set global arguments after a build target has been declared.\nThis is not permitted. Please declare all global arguments before your targets.")
  else
    match language with
    | none => .error (.invalidCode "Missing language definition in add_global_arguments")
    | some lang0 =>
      let lang := lang0.toLower
      let newArgs :=
        match dictGet s.global_args lang with
        | some old => old ++ args
        | none => args
      .ok { s with global_args := dictSet s.global_args lang newArgs }

/-- The registration tail of `Interpreter.build_target` (interpreter.py):
after constructing the target object it calls `self.add_target` and then
sets `self.global_args_frozen = True`. The source/kwarg processing before
this point does not touch `global_args_frozen` or the target mapping and is
elided. -/
def Interpreter.build_target_register (s : InterpState) (name : String) (t : Target) :
    Except IErr InterpState :=
  match Interpreter.add_target s.graph name t with
  | .error e => .error e
  | .ok g' => .ok { s with graph := g', global_args_frozen := true }

/-- One interpreter step touching this state: declaring a build target
(executable / static library / shared library / jar via `build_target`),
a successful `add_global_arguments` call, or the freeze performed by
`func_subproject` (`self.global_args_frozen = True`). -/
inductive IStep : InterpState → InterpState → Prop where
  | declare_target {s s' : InterpState} {n : String} {t : Target} :
      Interpreter.build_target_register s n t = .ok s' → IStep s s'
  | add_global {s s' : InterpState} {a : List String} {l : Option String} :
      Interpreter.func_add_global_arguments s a l = .ok s' → IStep s s'
  | subproject_freeze {s : InterpState} :
      IStep s { s with global_args_frozen := true }

/-! ### Subproject recursion (interpreter.py `Interpreter.func_subproject`) -/

/-- Embedding of `os.path.split` for the relative, separator-normalized paths the
interpreter stores in `subdir`: everything before the last `/` (joined
back), and the final component. -/
def ospath_split (p : String) : String × String :=
  let parts := p.splitOn "/"
  match parts with
  | [] => ("", p)
  | [single] => ("", single)
  | _ => (String.intercalate "/" parts.dropLast, parts.getLastD "")

/-- An evaluated subproject's holder, abstracted to an identity token (the
claims only need that the cached object itself is returned). -/
structure SubprojectHolder : Type where
  token : Nat
deriving DecidableEq, Repr

/-- The interpreter state components `func_subproject` consults before it
resolves or evaluates anything. -/
structure SubprojInterpState : Type where
  subdir : String
  subproject_dir : String
  subproject_stack : List String
  subprojects : Dict SubprojectHolder

/-- What `func_subproject` does before (or instead of) resolving and
evaluating the subproject: raise, return the cached holder, or fall
through to wrap resolution plus a fresh `Interpreter` run. -/
inductive SubprojOutcome : Type where
  | fatal (e : IErr)
  | cached (h : SubprojectHolder)
  | resolveAndEvaluate
deriving DecidableEq, Repr

/-- Embedding of `Interpreter.func_subproject` (interpreter.py), up to the point where a
fresh evaluation would start: exactly one argument; a non-root `subdir`
must be directly under `subproject_dir`; a name already on
`subproject_stack` is a fatal recursive include listing the path joined
with " => "; a name already in `subprojects` returns the cached holder
immediately; otherwise control proceeds to resolution and evaluation. -/
def Interpreter.func_subproject (s : SubprojInterpState) (args : List String) :
    SubprojOutcome :=
  match args with
  | [dirname] =>
    if s.subdir ≠ "" ∧ (ospath_split s.subdir).1 ≠ s.subproject_dir then
      .fatal (.interpreterException "Subprojects must be defined at the root directory.")
    else if dirname ∈ s.subproject_stack then
      .fatal (.interpreterException
        ("Recursive include of subprojects: " ++
          String.intercalate " => " (s.subproject_stack ++ [dirname]) ++ "."))
    else
      match dictGet s.subprojects dirname with
      | some h => .cached h
      | none => .resolveAndEvaluate
  | _ => .fatal (.interpreterException "Subproject takes exactly one argument")

/-! ### Wrap resolver (wrap.py `Resolver.download`, `Resolver.resolve`,
`Resolver.extract_package`) -/

/-- A parsed `[wrap-file]` descriptor with its required keys (`directory`,
`source_url`, `source_filename`, `source_hash`) and the optional patch
triple and `lead_directory_missing` flag (`PackageDefinition` in wrap.py;
the claims concern well-formed descriptors whose required keys are
present). -/
structure WrapFileDesc : Type where
  packagename : String
  directory : String
  source_url : String
  source_filename : String
  source_hash : String
  patch : Option (String × String × String)
  lead_directory_missing : Bool

/-- The externally visible actions of the resolver, in order. -/
inductive WrapEvent : Type where
  | downloaded (url : String)
  | wroteCache (filename : String)
  | madeDir (d : String)
  | extractedArchive (filename : String)
deriving DecidableEq, Repr

/-- The filesystem state the resolver touches: the `packagecache` contents
(filename → bytes) and the directories existing under `subdir_root`
(`"packagecache"` stands for the cache directory itself). -/
structure WrapFS : Type where
  cacheFiles : Dict (List Nat)
  dirs : List String
deriving Repr

/-- The network, as the bytes a successful `urlopen`+read of each URL
yields (`Resolver.get_data`). -/
structure WrapNet : Type where
  fetch : String → List Nat

/-- Embedding of `Resolver.download` (wrap.py), parameterized by the SHA-256 hex-digest
function (`Resolver.get_hash` wraps `hashlib.sha256`, external to the
repo). If `source_filename` is already in the package cache it returns at
once. Otherwise it fetches `source_url`, hashes, and raises on mismatch
with `source_hash` before anything is written; with a patch declared it
fetches and checks the patch the same way and writes the patch file; the
source archive is written to the cache last. The result is the filesystem
at return/raise time, the events so far, and the raised error if any. -/
def Resolver.download (hashFn : List Nat → String) (net : WrapNet)
    (p : WrapFileDesc) (fs : WrapFS) : WrapFS × List WrapEvent × Option IErr :=
  if fs.cacheFiles.any (fun q => q.1 == p.source_filename) then
    (fs, [], none)
  else
    let srcdata := net.fetch p.source_url
    let dhash := hashFn srcdata
    if dhash ≠ p.source_hash then
      (fs, [.downloaded p.source_url],
        some (.runtimeError
          ("Incorrect hash for source " ++ p.packagename ++ ":\n " ++
            p.source_hash ++ " expected\n " ++ dhash ++ " actual.")))
    else
      match p.patch with
      | some (purl, pfname, phash_expected) =>
        let pdata := net.fetch purl
        let phash := hashFn pdata
        if phash ≠ phash_expected then
          (fs, [.downloaded p.source_url, .downloaded purl],
            some (.runtimeError
              ("Incorrect hash for patch " ++ p.packagename ++ ":\n " ++
                phash_expected ++ " expected\n " ++ phash ++ " actual")))
        else
          let fs1 : WrapFS := { fs with cacheFiles := dictSet fs.cacheFiles pfname pdata }
          let fs2 : WrapFS :=
            { fs1 with cacheFiles := dictSet fs1.cacheFiles p.source_filename srcdata }
          (fs2,
            [.downloaded p.source_url, .downloaded purl,
             .wroteCache pfname, .wroteCache p.source_filename], none)
      | none =>
        let fs1 : WrapFS := { fs with cacheFiles := dictSet fs.cacheFiles p.source_filename srcdata }
        (fs1, [.downloaded p.source_url, .wroteCache p.source_filename], none)

/-- Embedding of `Resolver.extract_package` (wrap.py): a no-op when the target directory
already exists; otherwise create it first when `lead_directory_missing`
is declared, unpack the source archive (which materializes the directory),
and unpack the patch archive when present (`shutil.unpack_archive` is
external and modelled as the extraction events plus the directory
appearing). -/
def Resolver.extract_package (p : WrapFileDesc) (fs : WrapFS) :
    WrapFS × List WrapEvent :=
  if p.directory ∈ fs.dirs then
    (fs, [])
  else
    let mkEvs : List WrapEvent := if p.lead_directory_missing then [.madeDir p.directory] else []
    let patchEvs : List WrapEvent :=
      match p.patch with
      | some (_, pfname, _) => [.extractedArchive pfname]
      | none => []
    ({ fs with dirs := fs.dirs ++ [p.directory] },
      mkEvs ++ [.extractedArchive p.source_filename] ++ patchEvs)

/-- The `[wrap-file]` branch of `Resolver.resolve` (wrap.py): create the
package cache directory when absent, run `download`, and — only when it
returned without raising — run `extract_package`. -/
def Resolver.resolve_file (hashFn : List Nat → String) (net : WrapNet)
    (p : WrapFileDesc) (fs : WrapFS) : WrapFS × List WrapEvent × Option IErr :=
  let step0 : WrapFS × List WrapEvent :=
    if "packagecache" ∈ fs.dirs then (fs, [])
    else ({ fs with dirs := fs.dirs ++ ["packagecache"] }, [.madeDir "packagecache"])
  match Resolver.download hashFn net p step0.1 with
  | (fs1, evs1, some e) => (fs1, step0.2 ++ evs1, some e)
  | (fs1, evs1, none) =>
    let step2 := Resolver.extract_package p fs1
    (step2.1, step0.2 ++ evs1 ++ step2.2, none)

/-! ## Theorems -/

/-- Helper: the in-bounds case of the integer-index path. -/
theorem pyListIndex_ok (l : List Value) (i : Int)
    (h1 : -(l.length : Int) ≤ i) (h2 : i < (l.length : Int)) :
    ∃ v, pyListIndex l i = .ok v ∧
      l.get? (if i < 0 then ((l.length : Int) + i).toNat else i.toNat) = some v := by
  have hnot : ¬ (i < -(l.length : Int) ∨ (l.length : Int) ≤ i) := by omega
  have hjlt : (if i < 0 then ((l.length : Int) + i).toNat else i.toNat) < l.length := by
    split <;> omega
  have hg := List.get?_eq_get hjlt
  refine ⟨l.get ⟨_, hjlt⟩, ?_, hg⟩
  simp only [pyListIndex, if_neg hnot, hg]

/-- Helper: the out-of-bounds case of the integer-index path. -/
theorem pyListIndex_oob (l : List Value) (i : Int)
    (h : i < -(l.length : Int) ∨ (l.length : Int) ≤ i) :
    pyListIndex l i = .error (.interpreterException
      ("Index " ++ toString i ++ " out of bounds of array of size " ++
        toString l.length ++ ".")) := by
  simp only [pyListIndex, if_pos h]

/-- C6 counterexample: the claim requires the index to be an integer, with
every non-integer index raising — but `isinstance(index, int)` admits a
Python boolean, so `[5, 6][true]` returns `6` instead of raising. -/
theorem C6_counterexample :
    evaluate_indexing (.vlist [.vint 5, .vint 6]) (.vbool true) = .ok (.vint 6) := by
  rfl

/-- C6 (amended): indexing requires a list; the index must be an integer or
a boolean (a boolean indexes as 1/0, admitted by the `isinstance` check);
for an integer index in `[-len, len)` the element at the (possibly
negative, from-the-end) position is returned; out-of-bounds integer
indices, string or list indices, and non-list receivers raise; `-len` is
valid and `-len - 1` raises on non-empty lists. -/
theorem C6_indexing_amended :
    (∀ (l : List Value) (i : Int), -(l.length : Int) ≤ i → i < (l.length : Int) →
      ∃ v, evaluate_indexing (.vlist l) (.vint i) = .ok v ∧
        l.get? (if i < 0 then ((l.length : Int) + i).toNat else i.toNat) = some v) ∧
    (∀ (l : List Value) (i : Int), i < -(l.length : Int) ∨ (l.length : Int) ≤ i →
      evaluate_indexing (.vlist l) (.vint i) = .error (.interpreterException
        ("Index " ++ toString i ++ " out of bounds of array of size " ++
          toString l.length ++ "."))) ∧
    (∀ (v idx : Value), Value.isList v = false →
      evaluate_indexing v idx = .error (.interpreterException "Tried to index a non-array object.")) ∧
    (∀ (l : List Value) (s : String),
      evaluate_indexing (.vlist l) (.vstr s) = .error (.interpreterException "Index value is not an integer.")) ∧
    (∀ (l xs : List Value),
      evaluate_indexing (.vlist l) (.vlist xs) = .error (.interpreterException "Index value is not an integer.")) ∧
    (∀ (l : List Value) (b : Bool),
      evaluate_indexing (.vlist l) (.vbool b) = pyListIndex l (if b then 1 else 0)) ∧
    (∀ l : List Value, l ≠ [] →
      (∃ v, evaluate_indexing (.vlist l) (.vint (-(l.length : Int))) = .ok v) ∧
      (∃ m, evaluate_indexing (.vlist l) (.vint (-(l.length : Int) - 1)) =
        .error (.interpreterException m))) := by
  refine ⟨?_, ?_, ?_, ?_, ?_, ?_, ?_⟩
  · intro l i h1 h2
    exact pyListIndex_ok l i h1 h2
  · intro l i h
    exact pyListIndex_oob l i h
  · intro v idx hv
    cases v <;> simp [Value.isList] at hv ⊢ <;> rfl
  · intro l s; rfl
  · intro l xs; rfl
  · intro l b; rfl
  · intro l hl
    have hlen : 0 < l.length := List.length_pos.mpr hl
    constructor
    · obtain ⟨v, hv, _⟩ := pyListIndex_ok l (-(l.length : Int)) (by omega) (by omega)
      exact ⟨v, hv⟩
    · exact ⟨_, pyListIndex_oob l (-(l.length : Int) - 1) (by omega)⟩

/-- C6 witness: the amended theorem at concrete inputs: `[7, 8][-2]` is `7`
and `[7][-2]` is out of bounds. -/
theorem C6_witness :
    (∃ v, evaluate_indexing (.vlist [.vint 7, .vint 8]) (.vint (-2)) = .ok v ∧
      [Value.vint 7, Value.vint 8].get?
        (if (-2 : Int) < 0 then (((2 : Nat) : Int) + (-2)).toNat else (-2 : Int).toNat) = some v) ∧
    evaluate_indexing (.vlist [.vint 7]) (.vint (-2)) = .error (.interpreterException
      ("Index " ++ toString (-2 : Int) ++ " out of bounds of array of size " ++
        toString (1 : Nat) ++ ".")) := by
  constructor
  · exact C6_indexing_amended.1 [.vint 7, .vint 8] (-2) (by norm_num) (by norm_num)
  · exact C6_indexing_amended.2.1 [.vint 7] (-2) (by norm_num)

/-- C7 counterexample: the claim states `list + scalar` appends the scalar,
but the `add` branch of `evaluate_arithmeticstatement` is a raw Python `+`,
for which `list + int` is a `TypeError`; `[1] + 2` is a diagnostic, not
`[1, 2]`. -/
theorem C7_counterexample :
    evaluate_add (.vlist [.vint 1]) (.vint 2) =
      .error (.invalidCode "Invalid use of addition: unsupported operand type(s) for +") ∧
    evaluate_add (.vlist [.vint 1]) (.vint 2) ≠ .ok (.vlist [.vint 1, .vint 2]) :=
  ⟨rfl, fun h => Except.noConfusion h⟩

/-- C7 (amended): binary `+` implements `int+int` sum, `str+str`
concatenation and `list+list` concatenation; `list+scalar` (and
`scalar+list`, `int+str`, `str+int`) fails with an `InvalidCode`
diagnostic — appending a scalar to a list is what `+=`
(`evaluate_plusassign`) does instead; booleans participate in `+` as the
integers 1/0 (a Python `int`-subtype artifact). -/
theorem C7_add_amended :
    (∀ m n : Int, evaluate_add (.vint m) (.vint n) = .ok (.vint (m + n))) ∧
    (∀ s t : String, evaluate_add (.vstr s) (.vstr t) = .ok (.vstr (s ++ t))) ∧
    (∀ xs ys : List Value, evaluate_add (.vlist xs) (.vlist ys) = .ok (.vlist (xs ++ ys))) ∧
    (∀ (xs : List Value) (v : Value), Value.isList v = false →
      evaluate_add (.vlist xs) v =
        .error (.invalidCode "Invalid use of addition: unsupported operand type(s) for +")) ∧
    (∀ (xs : List Value) (v : Value), Value.isList v = false →
      evaluate_add v (.vlist xs) =
        .error (.invalidCode "Invalid use of addition: unsupported operand type(s) for +")) ∧
    (∀ (m : Int) (s : String),
      evaluate_add (.vint m) (.vstr s) =
        .error (.invalidCode "Invalid use of addition: unsupported operand type(s) for +") ∧
      evaluate_add (.vstr s) (.vint m) =
        .error (.invalidCode "Invalid use of addition: unsupported operand type(s) for +")) ∧
    (∀ (m : Int) (b : Bool),
      evaluate_add (.vint m) (.vbool b) = .ok (.vint (m + if b then 1 else 0))) ∧
    (∀ (xs : List Value) (v : Value), Value.isList v = false →
      evaluate_plusassign (.vlist xs) v = .ok (.vlist (xs ++ [v]))) := by
  refine ⟨fun m n => rfl, fun s t => rfl, fun xs ys => rfl, ?_, ?_, fun m s => ⟨rfl, rfl⟩,
    fun m b => rfl, ?_⟩
  · intro xs v hv
    cases v <;> simp [Value.isList] at hv ⊢ <;> rfl
  · intro xs v hv
    cases v <;> simp [Value.isList] at hv ⊢ <;> rfl
  · intro xs v hv
    cases v <;> simp [Value.isList] at hv ⊢ <;> rfl

/-- C7 witness: the amended theorem at concrete inputs: `1 + 2 = 3`,
`[1] + 2` is a diagnostic, and `[1] += 2` appends. -/
theorem C7_witness :
    evaluate_add (.vint 1) (.vint 2) = .ok (.vint (1 + 2)) ∧
    evaluate_add (.vlist [.vint 1]) (.vstr "x") =
      .error (.invalidCode "Invalid use of addition: unsupported operand type(s) for +") ∧
    evaluate_plusassign (.vlist [.vint 1]) (.vint 2) = .ok (.vlist ([.vint 1] ++ [.vint 2])) :=
  ⟨C7_add_amended.1 1 2,
   C7_add_amended.2.2.2.1 [.vint 1] (.vstr "x") rfl,
   C7_add_amended.2.2.2.2.2.2.2 [.vint 1] (.vint 2) rfl⟩

/-- C3: `#mesondefine` expansion: a line whose whitespace-split is not
exactly two tokens raises; otherwise, with `name` the second token: an
absent variable emits `/* undef name */`, boolean true `#define name`,
boolean false `#undef name`, an integer or string `#define name <value>`,
and any other type (a list) is a fatal `MesonException`. -/
theorem C3_mesondefine_semantics :
    (∀ (line : String) (cd : ConfigurationData), (pySplitWs line).length ≠ 2 →
      do_mesondefine line cd =
        .error (.mesonException "#mesondefine does not contain exactly two tokens")) ∧
    (∀ (line tok name : String) (cd : ConfigurationData), pySplitWs line = [tok, name] →
      (dictGet cd name = none →
        do_mesondefine line cd = .ok ("/* undef " ++ name ++ " */\n")) ∧
      (dictGet cd name = some (.vbool true) →
        do_mesondefine line cd = .ok ("#define " ++ name ++ "\n")) ∧
      (dictGet cd name = some (.vbool false) →
        do_mesondefine line cd = .ok ("#undef " ++ name ++ "\n")) ∧
      (∀ n : Int, dictGet cd name = some (.vint n) →
        do_mesondefine line cd = .ok ("#define " ++ name ++ " " ++ toString n ++ "\n")) ∧
      (∀ s : String, dictGet cd name = some (.vstr s) →
        do_mesondefine line cd = .ok ("#define " ++ name ++ " " ++ s ++ "\n")) ∧
      (∀ l : List Value, dictGet cd name = some (.vlist l) →
        do_mesondefine line cd = .error (.mesonException
          ("#mesondefine argument \"" ++ name ++ "\" is of unknown type.")))) := by
  constructor
  · intro line cd hlen
    simp only [do_mesondefine, if_pos hlen]
  · intro line tok name cd htoks
    have hlen : ¬ (pySplitWs line).length ≠ 2 := by rw [htoks]; simp
    refine ⟨?_, ?_, ?_, ?_, ?_, ?_⟩ <;>
      first
        | (intro hget; simp [do_mesondefine, htoks, hget])
        | (intro x hget; simp [do_mesondefine, htoks, hget])

/-- C3 witness: the theorem at concrete inputs: a one-token line raises and
`#mesondefine FOO` with `FOO = true` yields `#define FOO`. -/
theorem C3_witness :
    do_mesondefine "#mesondefine" [] =
      .error (.mesonException "#mesondefine does not contain exactly two tokens") ∧
    do_mesondefine "#mesondefine FOO" [("FOO", .vbool true)] =
      .ok ("#define " ++ "FOO" ++ "\n") := by
  constructor
  · exact C3_mesondefine_semantics.1 "#mesondefine" [] (by decide)
  · exact (C3_mesondefine_semantics.2 "#mesondefine FOO" "#mesondefine" "FOO"
      [("FOO", .vbool true)] (by decide)).2.1 rfl

/-- C4: a `configuration_data()` object consumed by `configure_file` is
marked used; every later `set`/`set10` call raises (the exception is thrown
in `validate_args` before any assignment, so the stored values are
untouched — reflected here by the call returning an error and no updated
holder); before first use, `set` with a string key and two arguments
succeeds and stores the value. -/
theorem C4_config_immutable_after_use :
    (∀ (c : ConfigurationDataHolder) (args : List Value),
      (∃ e, (func_configure_file_consume c).set_method args = .error e) ∧
      (∃ e, (func_configure_file_consume c).set10_method args = .error e)) ∧
    (∀ (c : ConfigurationDataHolder) (k : String) (v : Value), c.used = false →
      c.set_method [.vstr k, v] = .ok { c with values := dictSet c.values k v }) := by
  constructor
  · intro c args
    match args with
    | [] =>
      exact ⟨⟨.interpreterException "Configuration set requires 2 arguments.", rfl⟩,
             ⟨.interpreterException "Configuration set requires 2 arguments.", rfl⟩⟩
    | [a] =>
      exact ⟨⟨.interpreterException "Configuration set requires 2 arguments.", rfl⟩,
             ⟨.interpreterException "Configuration set requires 2 arguments.", rfl⟩⟩
    | [a, b] =>
      exact ⟨⟨.interpreterException
                "Can not set values on configuration object that has been used.", rfl⟩,
             ⟨.interpreterException
                "Can not set values on configuration object that has been used.", rfl⟩⟩
    | a :: b :: c' :: rest =>
      exact ⟨⟨.interpreterException "Configuration set requires 2 arguments.", rfl⟩,
             ⟨.interpreterException "Configuration set requires 2 arguments.", rfl⟩⟩
  · intro c k v hused
    simp [ConfigurationDataHolder.set_method, ConfigurationDataHolder.validate_args, hused]

/-- C4 witness: the theorem at a concrete holder: a fresh object accepts
`set('A', 1)`, and after consumption the same call errors. -/
theorem C4_witness :
    ConfigurationDataHolder.set_method ConfigurationDataHolder.init [.vstr "A", .vint 1] =
      .ok { ConfigurationDataHolder.init with
              values := dictSet ConfigurationDataHolder.init.values "A" (.vint 1) } ∧
    ∃ e, (func_configure_file_consume ConfigurationDataHolder.init).set_method
      [.vstr "A", .vint 1] = .error e := by
  constructor
  · exact C4_config_immutable_after_use.2 ConfigurationDataHolder.init "A" (.vint 1) rfl
  · exact (C4_config_immutable_after_use.1 ConfigurationDataHolder.init [.vstr "A", .vint 1]).1

/-- C8 counterexample: the claim orders keys lexicographically over
`(name, subproject, machine)`, but `_to_tuple` is
`(subproject, machine, name)`: for the keys `(a, z, HOST)` and
`(b, a, HOST)` the name-first order says `<` holds, while the code's
`__lt__` compares the subprojects `z` and `a` first and answers `False`. -/
theorem C8_counterexample :
    OptionKeySpec.lt_name_first (OptionKey.make "a" (some "z") .host)
        (OptionKey.make "b" (some "a") .host) = .ok true ∧
    OptionKey.lt (OptionKey.make "a" (some "z") .host)
        (OptionKey.make "b" (some "a") .host) = .ok false := by
  exact ⟨rfl, rfl⟩

/-- C8 (amended): equality is componentwise over the triple; strict
ordering is lexicographic over `(subproject, machine, name)` — the
component order of the source's `_to_tuple` — and the hash is precomputed
at construction from the components, hence consistent with equality. -/
theorem C8_optionkey_amended :
    (∀ a b : OptionKey, OptionKey.lt a b = OptionKeySpec.lt_subproject_first a b) ∧
    (∀ a b : OptionKey, OptionKey.beq a b = true ↔
      (a.subproject = b.subproject ∧ a.machine = b.machine ∧ a.name = b.name)) ∧
    (∀ (n n' : String) (s s' : Option String) (m m' : MachineChoice),
      OptionKey.beq (OptionKey.make n s m) (OptionKey.make n' s' m') = true →
      (OptionKey.make n s m).hashv = (OptionKey.make n' s' m').hashv) := by
  refine ⟨fun a b => rfl, ?_, ?_⟩
  · intro a b
    simp [OptionKey.beq, Bool.and_eq_true, beq_iff_eq, and_assoc]
  · intro n n' s s' m m' hbeq
    simp only [OptionKey.beq, OptionKey.make, Bool.and_eq_true, beq_iff_eq] at hbeq
    obtain ⟨⟨hs, hm⟩, hn⟩ := hbeq
    simp [OptionKey.make, optionKeyHash, hs, hm, hn]

/-- C8 witness: the amended theorem applied at concrete keys: two keys
built from equal components are `==` and carry equal precomputed hashes. -/
theorem C8_witness :
    (OptionKey.make "warning_level" (some "") .host).hashv =
      (OptionKey.make "warning_level" (some "") .host).hashv ∧
    (OptionKey.beq (OptionKey.make "warning_level" (some "") .host)
        (OptionKey.make "warning_level" (some "") .host) = true ↔
      ((some "" : Option String) = some "" ∧ MachineChoice.host = MachineChoice.host ∧
        "warning_level" = "warning_level")) := by
  constructor
  · exact C8_optionkey_amended.2.2 "warning_level" "warning_level" (some "") (some "")
      .host .host (by decide)
  · exact C8_optionkey_amended.2.1 (OptionKey.make "warning_level" (some "") .host)
      (OptionKey.make "warning_level" (some "") .host)

/-- Helper: inversion of a successful `add_target`: the name was not
reserved, the id was absent, and the graph grew by exactly that entry. -/
theorem add_target_ok_inv {g g' : BuildGraph} {n : String} {t : Target}
    (h : Interpreter.add_target g n t = .ok g') :
    n ∉ forbidden_target_names ∧
    (∀ p ∈ g.targets, p.1 ≠ t.get_id) ∧
    g'.targets = g.targets ++ [(t.get_id, t)] := by
  by_cases hforb : n ∈ forbidden_target_names
  · rw [Interpreter.add_target, if_pos hforb] at h
    exact absurd h (by simp)
  · simp only [Interpreter.add_target, if_neg hforb] at h
    by_cases hany : (g.targets.any fun p => p.1 == t.get_id) = true
    · rw [if_pos hany] at h
      exact absurd h (by simp)
    · rw [if_neg hany] at h
      injection h with h'
      refine ⟨hforb, ?_, by rw [← h']⟩
      intro p hp hc
      apply hany
      simp only [List.any_eq_true, beq_iff_eq]
      exact ⟨p, hp, hc⟩

/-- Helper: inversion of a successful module-path insertion: the name was
absent from the mapping's keys and the graph grew by the name-keyed
entry. -/
theorem module_insert_ok_inv {g g' : BuildGraph} {t : Target}
    (h : Interpreter.module_target_insert g t = .ok g') :
    (∀ p ∈ g.targets, p.1 ≠ t.name) ∧
    g'.targets = g.targets ++ [(t.name, t)] := by
  by_cases hany : (g.targets.any fun p => p.1 == t.name) = true
  · rw [Interpreter.module_target_insert, if_pos hany] at h
    exact absurd h (by simp)
  · rw [Interpreter.module_target_insert, if_neg hany] at h
    injection h with h'
    refine ⟨?_, by rw [← h']⟩
    intro p hp hc
    apply hany
    simp only [List.any_eq_true, beq_iff_eq]
    exact ⟨p, hp, hc⟩

/-- Helper: every reachable build graph — module insertions included — has
pairwise-distinct keys in the `targets` mapping (both insertion paths test
the key against the existing keys first). -/
theorem reachable_nodup {g : BuildGraph} (h : BuildGraph.Reachable g) :
    (g.targets.map Prod.fst).Nodup := by
  induction h with
  | init => simp
  | step _ hok ih =>
    obtain ⟨-, habs, heq⟩ := add_target_ok_inv hok
    rw [heq, List.map_append, List.nodup_append]
    refine ⟨ih, by simp, ?_⟩
    intro a ha
    simp only [List.mem_map] at ha
    obtain ⟨p, hp, rfl⟩ := ha
    simp only [List.map_cons, List.map_nil, List.mem_singleton]
    exact fun hc => habs p hp hc
  | module_step _ hok ih =>
    obtain ⟨habs, heq⟩ := module_insert_ok_inv hok
    rw [heq, List.map_append, List.nodup_append]
    refine ⟨ih, by simp, ?_⟩
    intro a ha
    simp only [List.mem_map] at ha
    obtain ⟨p, hp, rfl⟩ := ha
    simp only [List.map_cons, List.map_nil, List.mem_singleton]
    exact fun hc => habs p hp hc

/-- Helper: entries at distinct positions of a reachable graph have
distinct keys. -/
theorem reachable_keys_distinct {g : BuildGraph} (h : BuildGraph.Reachable g)
    {i j : Fin g.targets.length} (hij : i ≠ j) :
    (g.targets.get i).1 ≠ (g.targets.get j).1 := by
  intro hc
  have hnd := reachable_nodup h
  have hlen : (g.targets.map Prod.fst).length = g.targets.length := List.length_map _ _
  have h1 : (g.targets.map Prod.fst).get (i.cast hlen.symm) = (g.targets.get i).1 := by
    simp [List.get_map]
  have h2 : (g.targets.map Prod.fst).get (j.cast hlen.symm) = (g.targets.get j).1 := by
    simp [List.get_map]
  have hkey : (g.targets.map Prod.fst).get (i.cast hlen.symm) =
      (g.targets.map Prod.fst).get (j.cast hlen.symm) := by
    rw [h1, h2]; exact hc
  have hcast := (List.Nodup.get_inj_iff hnd).mp hkey
  exact hij (Fin.ext (by simpa using congrArg Fin.val hcast))

/-- Helper: an add_target-only reachable graph is reachable in the full
system. -/
theorem reachableDecl_reachable {g : BuildGraph} (h : BuildGraph.ReachableDecl g) :
    BuildGraph.Reachable g := by
  induction h with
  | init => exact BuildGraph.Reachable.init
  | step _ hok ih => exact BuildGraph.Reachable.step ih hok

/-- Helper: in an add_target-only reachable graph every entry is keyed by
its own target's id. -/
theorem reachableDecl_keys_are_ids {g : BuildGraph} (h : BuildGraph.ReachableDecl g) :
    ∀ p ∈ g.targets, p.1 = p.2.get_id := by
  induction h with
  | init => simp
  | step _ hok ih =>
    obtain ⟨-, -, heq⟩ := add_target_ok_inv hok
    rw [heq]
    intro p hp
    rcases List.mem_append.mp hp with hp | hp
    · exact ih p hp
    · simp only [List.mem_singleton] at hp
      rw [hp]

/-- C1 counterexample: target registration is not a single gate.
`module_method_callback` inserts a module-returned target keyed by its
name with no reserved-name or id check; a later `add_target` declaration
with the same name, type and subdir passes the key-based duplicate test
because its id differs from the stored name. The resulting graph is
reachable and holds two distinct entries whose targets have equal ids,
refuting the claimed invariant. -/
theorem C1_counterexample :
    BuildGraph.Reachable
      { targets := [("x", { name := "x", subdir := "", ttype := .exe }),
                    ("@@x@exe", { name := "x", subdir := "", ttype := .exe })] } ∧
    ("x", ({ name := "x", subdir := "", ttype := .exe } : Target)) ∈
      ([("x", { name := "x", subdir := "", ttype := .exe }),
        ("@@x@exe", { name := "x", subdir := "", ttype := .exe })] : List (String × Target)) ∧
    ("@@x@exe", ({ name := "x", subdir := "", ttype := .exe } : Target)) ∈
      ([("x", { name := "x", subdir := "", ttype := .exe }),
        ("@@x@exe", { name := "x", subdir := "", ttype := .exe })] : List (String × Target)) ∧
    ("x", ({ name := "x", subdir := "", ttype := .exe } : Target)) ≠
      ("@@x@exe", ({ name := "x", subdir := "", ttype := .exe } : Target)) ∧
    ({ name := "x", subdir := "", ttype := .exe } : Target).get_id =
      ({ name := "x", subdir := "", ttype := .exe } : Target).get_id := by
  refine ⟨?_, by decide, by decide, by decide, rfl⟩
  exact @BuildGraph.Reachable.step
    { targets := [("x", { name := "x", subdir := "", ttype := .exe })] }
    { targets := [("x", { name := "x", subdir := "", ttype := .exe }),
                  ("@@x@exe", { name := "x", subdir := "", ttype := .exe })] }
    "x" { name := "x", subdir := "", ttype := .exe }
    (@BuildGraph.Reachable.module_step
      { targets := [] }
      { targets := [("x", { name := "x", subdir := "", ttype := .exe })] }
      { name := "x", subdir := "", ttype := .exe }
      BuildGraph.Reachable.init rfl)
    rfl

/-- C1 (amended): targets declared through the built-in target functions
go through `add_target`, which rejects a reserved name with a fatal
`InvalidArguments` and rejects a declaration whose computed id already
keys the `targets` mapping with `InvalidCode`; the mapping's keys stay
pairwise distinct in every reachable graph, module insertions included —
but id uniqueness of the stored targets holds only for graphs built
through `add_target` alone, since `module_method_callback` inserts keyed
by name without the id discipline. -/
theorem C1_target_ids_amended :
    (∀ (g : BuildGraph) (n : String) (t : Target), n ∈ forbidden_target_names →
      Interpreter.add_target g n t = .error (.invalidArguments
        ("Target name \"" ++ n ++ "\" is reserved for Meson's internal use. Please rename."))) ∧
    (∀ (g : BuildGraph) (n : String) (t : Target), n ∉ forbidden_target_names →
      t.get_id ∈ g.targets.map Prod.fst →
      Interpreter.add_target g n t = .error (.invalidCode
        ("Tried to create target \"" ++ n ++ "\", but a target of that name already exists."))) ∧
    (∀ g : BuildGraph, BuildGraph.Reachable g →
      ∀ i j : Fin g.targets.length, i ≠ j →
        (g.targets.get i).1 ≠ (g.targets.get j).1) ∧
    (∀ g : BuildGraph, BuildGraph.ReachableDecl g →
      ∀ i j : Fin g.targets.length, i ≠ j →
        (g.targets.get i).2.get_id ≠ (g.targets.get j).2.get_id) := by
  refine ⟨?_, ?_, ?_, ?_⟩
  · intro g n t hmem
    unfold Interpreter.add_target
    rw [if_pos hmem]
  · intro g n t hnot hmem
    unfold Interpreter.add_target
    rw [if_neg hnot, if_pos]
    simp only [List.mem_map] at hmem
    obtain ⟨p, hp, hid⟩ := hmem
    simp only [List.any_eq_true, beq_iff_eq]
    exact ⟨p, hp, hid⟩
  · intro g hreach i j hij
    exact reachable_keys_distinct hreach hij
  · intro g hreach i j hij hc
    have hkeys := reachableDecl_keys_are_ids hreach
    have h1 : (g.targets.get i).1 = (g.targets.get i).2.get_id :=
      hkeys _ (List.get_mem _ _ _)
    have h2 : (g.targets.get j).1 = (g.targets.get j).2.get_id :=
      hkeys _ (List.get_mem _ _ _)
    exact reachable_keys_distinct (reachableDecl_reachable hreach) hij (by rw [h1, h2, hc])

/-- C1 witness: the amended theorem at concrete inputs: declaring `all` is
rejected; re-declaring an existing id is rejected; and in the concrete
add_target-only graph holding `a` and `b`, the targets at the two
positions have distinct ids. -/
theorem C1_witness :
    Interpreter.add_target { targets := [] } "all" { name := "all", subdir := "", ttype := .exe } =
      .error (.invalidArguments
        ("Target name \"" ++ "all" ++ "\" is reserved for Meson's internal use. Please rename.")) ∧
    Interpreter.add_target
        { targets := [("@@prog@exe", { name := "prog", subdir := "", ttype := .exe })] }
        "prog" { name := "prog", subdir := "", ttype := .exe } =
      .error (.invalidCode
        ("Tried to create target \"" ++ "prog" ++ "\", but a target of that name already exists.")) ∧
    (({ targets := [("@@a@exe", { name := "a", subdir := "", ttype := .exe }),
                    ("@@b@exe", { name := "b", subdir := "", ttype := .exe })] } :
        BuildGraph).targets.get ⟨0, by decide⟩).2.get_id ≠
      (({ targets := [("@@a@exe", { name := "a", subdir := "", ttype := .exe }),
                      ("@@b@exe", { name := "b", subdir := "", ttype := .exe })] } :
          BuildGraph).targets.get ⟨1, by decide⟩).2.get_id := by
  refine ⟨?_, ?_, ?_⟩
  · exact C1_target_ids_amended.1 { targets := [] } "all"
      { name := "all", subdir := "", ttype := .exe } (by decide)
  · exact C1_target_ids_amended.2.1
      { targets := [("@@prog@exe", { name := "prog", subdir := "", ttype := .exe })] }
      "prog" { name := "prog", subdir := "", ttype := .exe } (by decide) (by decide)
  · exact C1_target_ids_amended.2.2.2
      { targets := [("@@a@exe", { name := "a", subdir := "", ttype := .exe }),
                    ("@@b@exe", { name := "b", subdir := "", ttype := .exe })] }
      (@BuildGraph.ReachableDecl.step
        { targets := [("@@a@exe", { name := "a", subdir := "", ttype := .exe })] }
        { targets := [("@@a@exe", { name := "a", subdir := "", ttype := .exe }),
                      ("@@b@exe", { name := "b", subdir := "", ttype := .exe })] }
        "b" { name := "b", subdir := "", ttype := .exe }
        (@BuildGraph.ReachableDecl.step
          { targets := [] }
          { targets := [("@@a@exe", { name := "a", subdir := "", ttype := .exe })] }
          "a" { name := "a", subdir := "", ttype := .exe }
          BuildGraph.ReachableDecl.init rfl)
        rfl)
      ⟨0, by decide⟩ ⟨1, by decide⟩ (by decide)

/-- Helper: no interpreter step ever clears `global_args_frozen`. -/
theorem istep_frozen_monotone {s s' : InterpState} (h : IStep s s')
    (hf : s.global_args_frozen = true) : s'.global_args_frozen = true := by
  cases h with
  | declare_target hok =>
    unfold Interpreter.build_target_register at hok
    cases hadd : Interpreter.add_target s.graph _ _ with
    | error e => rw [hadd] at hok; exact absurd hok (by simp)
    | ok g' =>
      rw [hadd] at hok
      injection hok with h'
      rw [← h']
  | add_global hok =>
    unfold Interpreter.func_add_global_arguments at hok
    by_cases hsub : s.subproject ≠ ""
    · rw [if_pos hsub] at hok
      exact absurd hok (by simp)
    · rw [if_neg hsub, if_pos hf] at hok
      exact absurd hok (by simp)
  | subproject_freeze => rfl

/-- Helper: `global_args_frozen` stays set along any sequence of steps. -/
theorem steps_frozen_monotone {s s' : InterpState}
    (h : Relation.ReflTransGen IStep s s') (hf : s.global_args_frozen = true) :
    s'.global_args_frozen = true := by
  induction h with
  | refl => exact hf
  | tail _ hstep ih => exact istep_frozen_monotone hstep ih

/-- C5: declaring any build target sets `global_args_frozen`, no later step
clears it, and in a frozen root-scope state `add_global_arguments` fails
with exactly the `InvalidCode` message from the source; in an unfrozen
root-scope state a call carrying a `language` keyword succeeds. -/
theorem C5_global_args_freeze :
    (∀ (s s' s'' : InterpState) (n : String) (t : Target) (a : List String)
        (lang : Option String),
      Interpreter.build_target_register s n t = .ok s' →
      Relation.ReflTransGen IStep s' s'' →
      s''.subproject = "" →
      Interpreter.func_add_global_arguments s'' a lang = .error (.invalidCode
        "Tried to set global arguments after a build target has been declared.\nThis is not permitted. Please declare all global arguments before your targets.")) ∧
    (∀ (s : InterpState) (a : List String) (lang : String),
      s.global_args_frozen = false → s.subproject = "" →
      ∃ s', Interpreter.func_add_global_arguments s a (some lang) = .ok s') := by
  constructor
  · intro s s' s'' n t a lang hok hsteps hroot
    have hf' : s'.global_args_frozen = true := by
      unfold Interpreter.build_target_register at hok
      cases hadd : Interpreter.add_target s.graph n t with
      | error e => rw [hadd] at hok; exact absurd hok (by simp)
      | ok g' =>
        rw [hadd] at hok
        injection hok with h'
        rw [← h']
    have hf'' : s''.global_args_frozen = true := steps_frozen_monotone hsteps hf'
    unfold Interpreter.func_add_global_arguments
    rw [if_neg (by simp [hroot]), if_pos hf'']
  · intro s a lang hfrozen hroot
    unfold Interpreter.func_add_global_arguments
    rw [if_neg (by simp [hroot]), if_neg (by simp [hfrozen])]
    exact ⟨_, rfl⟩

/-- C5 witness: the theorem at a concrete run: from the initial root state,
declaring `prog` freezes global arguments and the very next
`add_global_arguments('-DX', language: 'c')` fails with the exact message;
the same call from the initial state succeeds. -/
theorem C5_witness :
    Interpreter.func_add_global_arguments
        { subproject := "", global_args_frozen := true, global_args := [],
          graph := { targets :=
            [("@@prog@exe", { name := "prog", subdir := "", ttype := .exe })] } }
        ["-DX"] (some "c") = .error (.invalidCode
          "Tried to set global arguments after a build target has been declared.\nThis is not permitted. Please declare all global arguments before your targets.") ∧
    (∃ s', Interpreter.func_add_global_arguments
        { subproject := "", global_args_frozen := false, global_args := [],
          graph := { targets := [] } } ["-DX"] (some "c") = .ok s') := by
  constructor
  · exact C5_global_args_freeze.1
      { subproject := "", global_args_frozen := false, global_args := [],
        graph := { targets := [] } }
      _ _ "prog" { name := "prog", subdir := "", ttype := .exe } ["-DX"] (some "c")
      rfl Relation.ReflTransGen.refl rfl
  · exact C5_global_args_freeze.2 _ ["-DX"] "c" rfl rfl

/-- C9: with the call made from the root (or from a directory directly
under the subproject dir), a name already on the evaluation stack is a
fatal recursive include listing the path joined with " => ", and a name
already loaded (and not on the stack) returns the cached holder without
falling through to resolution and evaluation. -/
theorem C9_subproject_cycle_and_cache :
    (∀ (s : SubprojInterpState) (d : String),
      (s.subdir = "" ∨ (ospath_split s.subdir).1 = s.subproject_dir) →
      d ∈ s.subproject_stack →
      Interpreter.func_subproject s [d] = .fatal (.interpreterException
        ("Recursive include of subprojects: " ++
          String.intercalate " => " (s.subproject_stack ++ [d]) ++ "."))) ∧
    (∀ (s : SubprojInterpState) (d : String) (h : SubprojectHolder),
      (s.subdir = "" ∨ (ospath_split s.subdir).1 = s.subproject_dir) →
      d ∉ s.subproject_stack →
      dictGet s.subprojects d = some h →
      Interpreter.func_subproject s [d] = .cached h) := by
  have hcond : ∀ s : SubprojInterpState,
      (s.subdir = "" ∨ (ospath_split s.subdir).1 = s.subproject_dir) →
      ¬ (s.subdir ≠ "" ∧ (ospath_split s.subdir).1 ≠ s.subproject_dir) := by
    intro s hs
    rcases hs with hs | hs <;> simp [hs]
  constructor
  · intro s d hs hmem
    simp only [Interpreter.func_subproject, if_neg (hcond s hs), if_pos hmem]
  · intro s d h hs hmem hget
    simp only [Interpreter.func_subproject, if_neg (hcond s hs), if_neg hmem, hget]

/-- C9 witness: the theorem at the spec's concrete scenario: with stack
`a => b`, `subproject('a')` is the fatal `Recursive include of
subprojects: a => b => a.`, and with `a` cached (stack `b`), the holder
comes straight from the cache. -/
theorem C9_witness :
    Interpreter.func_subproject
        { subdir := "", subproject_dir := "subprojects",
          subproject_stack := ["a", "b"], subprojects := [] } ["a"] =
      .fatal (.interpreterException
        ("Recursive include of subprojects: " ++
          String.intercalate " => " (["a", "b"] ++ ["a"]) ++ ".")) ∧
    Interpreter.func_subproject
        { subdir := "", subproject_dir := "subprojects",
          subproject_stack := ["b"], subprojects := [("a", { token := 5 })] } ["a"] =
      .cached { token := 5 } := by
  constructor
  · exact C9_subproject_cycle_and_cache.1
      { subdir := "", subproject_dir := "subprojects",
        subproject_stack := ["a", "b"], subprojects := [] } "a"
      (Or.inl rfl) (by decide)
  · exact C9_subproject_cycle_and_cache.2
      { subdir := "", subproject_dir := "subprojects",
        subproject_stack := ["b"], subprojects := [("a", { token := 5 })] } "a"
      { token := 5 } (Or.inl rfl) (by decide) rfl

/-- C2: for a `file` wrap whose archive is not cached, a SHA-256 mismatch
between the downloaded bytes and `source_hash` aborts `resolve` with the
fatal incorrect-hash error; at that point the package cache is unchanged
(the archive was never written) and no extraction event occurred. -/
theorem C2_wrap_hash_mismatch_aborts
    (hashFn : List Nat → String) (net : WrapNet) (p : WrapFileDesc) (fs : WrapFS)
    (hnc : fs.cacheFiles.any (fun q => q.1 == p.source_filename) = false)
    (hmis : hashFn (net.fetch p.source_url) ≠ p.source_hash) :
    (Resolver.resolve_file hashFn net p fs).2.2 = some (.runtimeError
      ("Incorrect hash for source " ++ p.packagename ++ ":\n " ++
        p.source_hash ++ " expected\n " ++ hashFn (net.fetch p.source_url) ++ " actual.")) ∧
    (Resolver.resolve_file hashFn net p fs).1.cacheFiles = fs.cacheFiles ∧
    (∀ f, WrapEvent.extractedArchive f ∉ (Resolver.resolve_file hashFn net p fs).2.1) ∧
    (∀ f, WrapEvent.wroteCache f ∉ (Resolver.resolve_file hashFn net p fs).2.1) := by
  have hdl : ∀ fs0 : WrapFS, fs0.cacheFiles = fs.cacheFiles →
      Resolver.download hashFn net p fs0 =
        (fs0, [.downloaded p.source_url],
          some (.runtimeError
            ("Incorrect hash for source " ++ p.packagename ++ ":\n " ++
              p.source_hash ++ " expected\n " ++ hashFn (net.fetch p.source_url) ++ " actual."))) := by
    intro fs0 hcc
    unfold Resolver.download
    rw [hcc, if_neg (by simp [hnc]), if_pos hmis]
  unfold Resolver.resolve_file
  by_cases hdir : "packagecache" ∈ fs.dirs
  · rw [if_pos hdir]
    simp only [hdl fs rfl]
    refine ⟨trivial, trivial, ?_, ?_⟩ <;> intro f <;> simp
  · rw [if_neg hdir]
    simp only [hdl { fs with dirs := fs.dirs ++ ["packagecache"] } rfl]
    refine ⟨trivial, trivial, ?_, ?_⟩ <;> intro f <;> simp

/-- C2 witness: the theorem at a concrete resolver run: a wrap whose
`source_hash` is `0000` against downloaded bytes hashing to `dead` aborts
with the incorrect-hash error, the cache stays empty, and nothing is
extracted or written. -/
theorem C2_witness :
    (Resolver.resolve_file (fun _ => "dead") { fetch := fun _ => [0] }
      { packagename := "pkg", directory := "dir", source_url := "u",
        source_filename := "f.tgz", source_hash := "0000", patch := none,
        lead_directory_missing := false }
      { cacheFiles := [], dirs := [] }).2.2 = some (.runtimeError
        ("Incorrect hash for source " ++ "pkg" ++ ":\n " ++ "0000" ++ " expected\n " ++
          (fun (_ : List Nat) => "dead") ((fun (_ : String) => [(0 : Nat)]) "u") ++ " actual.")) := by
  exact (C2_wrap_hash_mismatch_aborts (fun _ => "dead") { fetch := fun _ => [0] }
    { packagename := "pkg", directory := "dir", source_url := "u",
      source_filename := "f.tgz", source_hash := "0000", patch := none,
      lead_directory_missing := false }
    { cacheFiles := [], dirs := [] } rfl (by decide)).1

/-- C10: when the wrap's `source_filename` is already present in the
package cache, `download` returns immediately — no fetch, no hash
computation, no state change — and a `resolve` over such a cache never
raises at all, whatever the cached bytes are; in particular no
hash-mismatch error is possible. -/
theorem C10_cached_archive_skips_hash_check
    (hashFn : List Nat → String) (net : WrapNet) (p : WrapFileDesc) (fs : WrapFS)
    (hc : fs.cacheFiles.any (fun q => q.1 == p.source_filename) = true) :
    Resolver.download hashFn net p fs = (fs, [], none) ∧
    (Resolver.resolve_file hashFn net p fs).2.2 = none := by
  have hdl : ∀ fs0 : WrapFS, fs0.cacheFiles = fs.cacheFiles →
      Resolver.download hashFn net p fs0 = (fs0, [], none) := by
    intro fs0 hcc
    unfold Resolver.download
    rw [hcc, if_pos hc]
  constructor
  · exact hdl fs rfl
  · unfold Resolver.resolve_file
    by_cases hdir : "packagecache" ∈ fs.dirs
    · rw [if_pos hdir]
      simp only [hdl fs rfl]
    · rw [if_neg hdir]
      simp only [hdl { fs with dirs := fs.dirs ++ ["packagecache"] } rfl]

/-- C10 witness: the theorem at a concrete resolver state whose cached
bytes hash to something other than `source_hash`: the cached archive is
used as-is and no error is raised. -/
theorem C10_witness :
    Resolver.download (fun _ => "dead") { fetch := fun _ => [0] }
      { packagename := "pkg", directory := "dir", source_url := "u",
        source_filename := "f.tgz", source_hash := "0000", patch := none,
        lead_directory_missing := false }
      { cacheFiles := [("f.tgz", [9])], dirs := [] } =
    ({ cacheFiles := [("f.tgz", [9])], dirs := [] }, [], none) := by
  exact (C10_cached_archive_skips_hash_check (fun _ => "dead") { fetch := fun _ => [0] }
    { packagename := "pkg", directory := "dir", source_url := "u",
      source_filename := "f.tgz", source_hash := "0000", patch := none,
      lead_directory_missing := false }
    { cacheFiles := [("f.tgz", [9])], dirs := [] } rfl).1

end Meson
